import Mathlib

/-!
Shallow embedding of the Kaonic serial-number system core
(`src/server.py`, `src/crypto_utils.py`, schema from `src/db.py`).

Pure Python helpers become Lean functions; the PostgreSQL tables become
lists of records with the SQL statements modelled as explicit list
transformations; external cryptographic primitives (PEM loading, base64,
ECDSA, HMAC-SHA256) are abstracted as backend records of total functions
whose fallible operations return `Except`, mirroring the Python calls that
can raise.  Machine integers do not overflow in the modelled ranges, so
`Nat`/`Int` are used directly.
-/

namespace Kaonic

/-! ### Python string primitives

`str.strip`, `str.zfill`, `int(...)` parsing and `str.upper`, modelled on
`List Char`.  `int(...)` is modelled for optionally signed decimal strings
with surrounding whitespace (Python's underscore digit grouping is not
modelled).  `str.upper` is modelled for ASCII. -/

def isDigitChar (c : Char) : Bool := 48 ≤ c.toNat && c.toNat ≤ 57

def isAsciiLowerChar (c : Char) : Bool := 97 ≤ c.toNat && c.toNat ≤ 122

def pyStrip (l : List Char) : List Char :=
  ((l.dropWhile Char.isWhitespace).reverse.dropWhile Char.isWhitespace).reverse

def asciiUpperChar (c : Char) : Char :=
  if isAsciiLowerChar c then Char.ofNat (c.toNat - 32) else c

def pyUpper (l : List Char) : List Char := l.map asciiUpperChar

def pyStripStr (s : String) : String := String.mk (pyStrip s.data)

/-- Python `str.zfill(w)`: left-pad with zeros to width `w`, keeping a leading
sign character in front of the padding. -/
def pyZfill (w : Nat) (l : List Char) : List Char :=
  if w ≤ l.length then l
  else
    match l with
    | c :: rest =>
      if c = '-' ∨ c = '+' then c :: (List.replicate (w - l.length) '0' ++ rest)
      else List.replicate (w - l.length) '0' ++ l
    | [] => List.replicate w '0'

def digitsToNat (l : List Char) : Nat :=
  l.foldl (fun a c => 10 * a + (c.toNat - 48)) 0

def parseDigits (l : List Char) : Option Nat :=
  if l ≠ [] ∧ l.all isDigitChar = true then some (digitsToNat l) else none

/-- Python `int(s)` on a string: strip whitespace, optional sign, decimal
digits; raises `ValueError` otherwise (modelled as `none`). -/
def parsePyIntChars (l : List Char) : Option Int :=
  let t := pyStrip l
  if t.take 1 = ['-'] then (parseDigits (t.drop 1)).map (fun n => -(n : Int))
  else if t.take 1 = ['+'] then (parseDigits (t.drop 1)).map (fun n => (n : Int))
  else (parseDigits t).map (fun n => (n : Int))

def parsePyInt (s : String) : Option Int := parsePyIntChars s.data

/-! ### Proleptic Gregorian calendar

Python's `datetime.date` ordinals: ordinal 1 is 0001-01-01, a Monday. -/

structure Date where
  year : Nat
  month : Nat
  day : Nat
deriving DecidableEq, Repr

/-- Ordinal of January 1: `date(y, 1, 1).toordinal()`. -/
def jan1Ordinal (y : Nat) : Nat :=
  1 + 365 * (y - 1) + (y - 1) / 4 - (y - 1) / 100 + (y - 1) / 400

/-- Weekday with Monday = 0 (Python `date.weekday()`), from an ordinal. -/
def weekdayMon0 (o : Nat) : Nat := (o + 6) % 7

/-- Python `date.fromordinal`: civil date from an ordinal (days-to-civil
algorithm, shifted so the computation stays in `Nat`). -/
def dateOfOrdinal (o : Nat) : Date :=
  let n := o + 305
  let era := n / 146097
  let doe := n % 146097
  let yoe := (doe - doe / 1460 + doe / 36524 - doe / 146096) / 365
  let y := yoe + era * 400
  let doy := doe - (365 * yoe + yoe / 4 - yoe / 100)
  let mp := (5 * doy + 2) / 153
  let d := doy - (153 * mp + 2) / 5 + 1
  let m := if mp < 10 then mp + 3 else mp - 9
  { year := if m ≤ 2 then y + 1 else y, month := m, day := d }

/-! ### `convert_wwyy_to_date` (`src/server.py`)

The source zero-fills the code to four characters, reads the first two as
a week number and `2000 +` the last part as a year, and evaluates
`datetime.strptime(f"{year}-W{week}-1", "%Y-W%W-%w")`, returning `None`
on any `ValueError`.  CPython's `strptime` accepts `%W` values 0–53
(regex `5[0-3]|[0-4]\d|\d`) and `%Y` values of exactly four digits, and
computes `1 + (7 - weekday(Jan1)) % 7 + 7*(week - 1)` days into the year
for `%w` = 1 (Monday), or `1 - weekday(Jan1)` for week 0
(`_calc_julian_from_U_or_W`); out-of-range values raise `ValueError`. -/

def convert_wwyy_to_ordinal (wwyy : String) : Option Nat :=
  let s := pyZfill 4 wwyy.data
  match parsePyIntChars (s.take 2), parsePyIntChars (s.drop 2) with
  | some wk, some yy =>
    let yearI : Int := 2000 + yy
    if 0 ≤ wk ∧ wk ≤ 53 ∧ 1000 ≤ yearI ∧ yearI ≤ 9999 then
      let week := wk.toNat
      let year := yearI.toNat
      let jan1 := jan1Ordinal year
      let fw := weekdayMon0 jan1
      if week = 0 then some (jan1 - fw)
      else some (jan1 + (7 - fw) % 7 + 7 * (week - 1))
    else none
  | _, _ => none

def convert_wwyy_to_date (wwyy : String) : Option Date :=
  (convert_wwyy_to_ordinal wwyy).map dateOfOrdinal

/-- Modelled from the spec: the first day (Monday) of ISO week `week` of
`year` — ISO week 1 is the week containing January 4.  This is the
specification-side reading of "ISO week", used to compare against the
source's `%W`-based computation. -/
def specIsoWeekFirstDay (year week : Nat) : Nat :=
  let jan4 := jan1Ordinal year + 3
  (jan4 - weekdayMon0 jan4) + 7 * (week - 1)


/-! ### The `serials` table and the ingestion loop of `add_serials`

`serials` has primary key `serial_number`; the insert statement is
`INSERT ... ON CONFLICT DO NOTHING`, so a duplicate key is a silent no-op
and raises nothing; `added_count += 1` runs after every non-raising
execute, i.e. for every valid row whether or not a row was stored. -/

structure SerialRow where
  serial_number : String
  production_date : Date
  provenance : String
deriving DecidableEq, Repr

abbrev SerialsTable := List SerialRow

def hasSerial (t : SerialsTable) (s : String) : Bool :=
  t.any (fun r => r.serial_number == s)

def insertSerialOrIgnore (t : SerialsTable) (r : SerialRow) : SerialsTable :=
  if hasSerial t r.serial_number then t else t ++ [r]

/-- The row loop of `add_serials` (src/server.py:240-264): skip rows with
fewer than two fields, trim the two cells, skip rows whose week/year code
does not convert, otherwise insert `K1S-<deviceId>` (conflict ignored)
and increment the count. -/
def processRows (factory_alias : String) : List (List String) → SerialsTable → SerialsTable × Nat
  | [], t => (t, 0)
  | row :: rest, t =>
    match row with
    | cell0 :: cell1 :: _ =>
      let device_id := pyStripStr cell0
      let wwyy := pyStripStr cell1
      match convert_wwyy_to_date wwyy with
      | none => processRows factory_alias rest t
      | some d =>
        let serial := "K1S-" ++ device_id
        let t1 := insertSerialOrIgnore t ⟨serial, d, factory_alias⟩
        let res := processRows factory_alias rest t1
        (res.1, res.2 + 1)
    | _ => processRows factory_alias rest t

/-- The CSV side of `add_serials`: `next(reader, None)` drops the header
row, then the row loop runs. -/
def ingestCsvRows (factory_alias : String) (rows : List (List String)) (t : SerialsTable) :
    SerialsTable × Nat :=
  processRows factory_alias rows.tail t

/-! ### `verify_serial` (`src/server.py:118-155`)

The query parameter is stripped and upper-cased, must match
`^K1S-[A-Z0-9]{1,10}$`, and is then looked up by exact equality on the
`serial_number` primary key. -/

def isSerialBodyChar (c : Char) : Bool :=
  (65 ≤ c.toNat && c.toNat ≤ 90) || (48 ≤ c.toNat && c.toNat ≤ 57)

def serialPatternChars : List Char → Bool
  | 'K' :: '1' :: 'S' :: '-' :: rest =>
    decide (1 ≤ rest.length) && decide (rest.length ≤ 10) && rest.all isSerialBodyChar
  | _ => false

def verify_serial (sn : String) (t : SerialsTable) : Option SerialRow :=
  let serial := String.mk (pyUpper (pyStrip sn.data))
  if serialPatternChars serial.data then t.find? (fun r => r.serial_number == serial)
  else none

/-! ### The key registry (`public_key_requests` table) -/

inductive RegStatus
  | pending
  | approved
  | denied
deriving DecidableEq, Repr

structure KeyRegistration where
  id : Nat
  factory_name : String
  public_key : String
  status : RegStatus
  approved_at : Option Nat
  approved_by : Option String
deriving DecidableEq, Repr

structure Registry where
  rows : List KeyRegistration
  nextId : Nat
deriving DecidableEq, Repr

inductive RegisterResult
  | badRequest
  | invalidKeyFormat
  | alreadyRegistered (id : Nat) (status : RegStatus)
  | submitted (id : Nat)
deriving DecidableEq, Repr

/-- Endpoint `register_public_key` (src/server.py:276-340).  Missing fields are a
400; the structural P-256 validation (`validate_public_key_format`,
external cryptography library) is abstracted as the `validKey`
predicate; an existing identical key returns its `(id, status)` without
writing; otherwise a `pending` record is inserted with the next id. -/
def register_public_key (validKey : String → Bool) (factory_name public_key : String)
    (reg : Registry) : RegisterResult × Registry :=
  if factory_name = "" ∨ public_key = "" then (.badRequest, reg)
  else if validKey public_key = false then (.invalidKeyFormat, reg)
  else
    match reg.rows.find? (fun r => r.public_key == public_key) with
    | some r => (.alreadyRegistered r.id r.status, reg)
    | none =>
      (.submitted reg.nextId,
       ⟨reg.rows ++ [⟨reg.nextId, factory_name, public_key, .pending, none, none⟩],
        reg.nextId + 1⟩)

inductive AdminResult
  | notFound
  | ok (factory_name : String)
deriving DecidableEq, Repr

/-- Endpoint `approve_registration_request` (src/server.py:422-466):
`UPDATE ... SET status = 'approved', approved_at = CURRENT_TIMESTAMP,
approved_by = %s WHERE id = %s RETURNING factory_name`. -/
def approve_registration_request (request_id : Nat) (approved_by : String) (now : Nat)
    (reg : Registry) : AdminResult × Registry :=
  match reg.rows.find? (fun r => r.id == request_id) with
  | none => (.notFound, reg)
  | some r =>
    (.ok r.factory_name,
     ⟨reg.rows.map (fun x =>
        if x.id == request_id then
          { x with status := .approved, approved_at := some now, approved_by := some approved_by }
        else x),
      reg.nextId⟩)

/-- Endpoint `deny_registration_request` (src/server.py:468-512). -/
def deny_registration_request (request_id : Nat) (denied_by : String) (now : Nat)
    (reg : Registry) : AdminResult × Registry :=
  match reg.rows.find? (fun r => r.id == request_id) with
  | none => (.notFound, reg)
  | some r =>
    (.ok r.factory_name,
     ⟨reg.rows.map (fun x =>
        if x.id == request_id then
          { x with status := .denied, approved_at := some now, approved_by := some denied_by }
        else x),
      reg.nextId⟩)

/-- Endpoint `revoke_registration_request` (src/server.py:514-558):
`UPDATE ... SET status = 'pending', approved_at = NULL, approved_by = NULL
WHERE id = %s AND status = 'approved' RETURNING factory_name`; zero
matched rows yield a 404 and no change. -/
def revoke_registration_request (request_id : Nat) (reg : Registry) : AdminResult × Registry :=
  match reg.rows.find? (fun r => r.id == request_id && r.status == RegStatus.approved) with
  | none => (.notFound, reg)
  | some r =>
    (.ok r.factory_name,
     ⟨reg.rows.map (fun x =>
        if x.id == request_id && x.status == RegStatus.approved then
          { x with status := .pending, approved_at := none, approved_by := none }
        else x),
      reg.nextId⟩)

/-- Model of `ORDER BY approved_at DESC LIMIT 1`: PostgreSQL sorts `NULL` first
under `DESC`; ties are returned in an unspecified order, modelled here as
keeping the earliest-scanned row. -/
def aaPreferred : Option Nat → Option Nat → Bool
  | none, none => false
  | none, some _ => true
  | some _, none => false
  | some a, some b => b < a

def pickNewestApproval : List KeyRegistration → Option KeyRegistration
  | [] => none
  | r :: rest =>
    match pickNewestApproval rest with
    | none => some r
    | some b => if aaPreferred b.approved_at r.approved_at then some b else some r

/-- Lookup `get_factory_public_key_from_db` (src/crypto_utils.py:156-182):
`SELECT public_key FROM public_key_requests WHERE factory_name = %s AND
status = 'approved' ORDER BY approved_at DESC LIMIT 1`. -/
def get_factory_public_key_from_db (factory_id : String) (reg : Registry) : Option String :=
  (pickNewestApproval (reg.rows.filter
      (fun r => r.factory_name == factory_id && r.status == RegStatus.approved))).map
    (fun r => r.public_key)

/-! ### Signature verification (`src/crypto_utils.py`)

The cryptographic library calls are abstracted as backends of total
functions; the calls that can raise in Python return `Except`, and every
`except` clause of the source is modelled by the explicit error branches
below. -/

inductive LoadedKey
  | ecKey (material : String)
  | otherKey (material : String)
deriving DecidableEq, Repr

inductive EcdsaOutcome
  | valid
  | invalidSignature
  | otherError (msg : String)
deriving DecidableEq, Repr

structure EcdsaBackend where
  load_pem_public_key : String → Except String LoadedKey
  b64decode : String → Except String (List Nat)
  verify : String → String → List Nat → EcdsaOutcome

structure HmacBackend where
  hmacSha256 : String → String → List Nat
  b64decode : String → Except String (List Nat)

def flutterSecret : String := "flutter_client_secret_key"

/-- Function `verify_ecdsa_signature` (src/crypto_utils.py:21-59): load the PEM
key, require an EC key, base64-decode the signature, verify; an
`InvalidSignature` maps to `(False, "Invalid signature")` and every other
exception to `(False, str(e))`. -/
def verify_ecdsa_signature (E : EcdsaBackend) (public_key_pem message signature_base64 : String) :
    Bool × Option String :=
  match E.load_pem_public_key public_key_pem with
  | .error e => (false, some e)
  | .ok (.otherKey _) => (false, some "Public key is not an EC key")
  | .ok (.ecKey material) =>
    match E.b64decode signature_base64 with
    | .error e => (false, some e)
    | .ok sigBytes =>
      match E.verify material message sigBytes with
      | .valid => (true, none)
      | .invalidSignature => (false, some "Invalid signature")
      | .otherError e => (false, some e)

/-- Function `verify_hmac_signature` (src/crypto_utils.py:61-96): compare an
HMAC-SHA256 tag under the fixed shared secret (the source's
`hmac.compare_digest`); decode failures map to `(False, str(e))`. -/
def verify_hmac_signature (H : HmacBackend) (message signature_base64 secret_key : String) :
    Bool × Option String :=
  let expected := H.hmacSha256 secret_key message
  match H.b64decode signature_base64 with
  | .error e => (false, some e)
  | .ok received =>
    if expected == received then (true, none) else (false, some "Signature mismatch")

/-- Function `create_signature_message` (src/crypto_utils.py:184-195). -/
def create_signature_message (timestamp file_hash : String) : String :=
  timestamp ++ file_hash

/-- Function `verify_signature_with_factory_key` (src/server.py:158-195): resolve
the factory's approved key (no key: `(False, None)`), then try ECDSA
first and the legacy HMAC second; both failing yields `(False, None)`. -/
def verify_signature_with_factory_key (E : EcdsaBackend) (H : HmacBackend)
    (signature_b64 timestamp csv_hash factory_id : String) (reg : Registry) :
    Bool × Option String :=
  match get_factory_public_key_from_db factory_id reg with
  | none => (false, none)
  | some public_key_pem =>
    let message := create_signature_message timestamp csv_hash
    if (verify_ecdsa_signature E public_key_pem message signature_b64).1 then
      (true, some factory_id)
    else if (verify_hmac_signature H message signature_b64 flutterSecret).1 then
      (true, some factory_id)
    else (false, none)

/-! ### The `add_serials` endpoint (`src/server.py:197-273`) -/

/-- An uploaded file: its SHA-256 hex digest (`compute_file_hash`, kept
opaque) together with the rows `csv.reader` produces from its decoded
content. -/
structure UploadedFile where
  hash : String
  rows : List (List String)
deriving DecidableEq, Repr

structure AddSerialsRequest where
  signature : Option String
  timestamp : Option String
  factory_id : Option String
  file : Option UploadedFile
deriving DecidableEq, Repr

inductive AddSerialsResult
  | missingAuthHeaders
  | missingFactoryId
  | uncaughtValueError
  | requestExpired
  | noFileUploaded
  | unauthorized
  | success (added_count : Nat)
deriving DecidableEq, Repr

/-- Python truthiness of an optional header string: absent and empty are
both falsy. -/
def pyTruthyStr : Option String → Bool
  | none => false
  | some s => !(s == "")

/-- The `add_serials` request pipeline.  `int(timestamp)` at
src/server.py:212 sits outside any `try`, so an unparseable timestamp
raises an uncaught `ValueError` (the framework turns it into an internal
server error), modelled as `uncaughtValueError`. -/
def add_serials (E : EcdsaBackend) (H : HmacBackend) (now : Int)
    (req : AddSerialsRequest) (reg : Registry) (t : SerialsTable) :
    AddSerialsResult × SerialsTable :=
  if !(pyTruthyStr req.signature) || !(pyTruthyStr req.timestamp) then (.missingAuthHeaders, t)
  else if !(pyTruthyStr req.factory_id) then (.missingFactoryId, t)
  else
    let sig := req.signature.getD ""
    let ts := req.timestamp.getD ""
    let fid := req.factory_id.getD ""
    match parsePyInt ts with
    | none => (.uncaughtValueError, t)
    | some tsInt =>
      if 300 < (now - tsInt).natAbs then (.requestExpired, t)
      else
        match req.file with
        | none => (.noFileUploaded, t)
        | some f =>
          let v := verify_signature_with_factory_key E H sig ts f.hash fid reg
          if v.1 = false then (.unauthorized, t)
          else
            let res := ingestCsvRows (v.2.getD "") f.rows t
            (.success res.2, res.1)

/-! ### `store_batch_metadata` (`src/crypto_utils.py:211-243`)

`INSERT INTO batch_uploads (id, factory_id, test_run_count,
total_serials, metadata) VALUES (...) ON CONFLICT (id) DO UPDATE SET
metadata = EXCLUDED.metadata, test_run_count = EXCLUDED.test_run_count,
total_serials = EXCLUDED.total_serials` — note the update clause does not
touch `factory_id`. -/

structure BatchUploadRow where
  id : String
  factory_id : Option String
  test_run_count : Int
  total_serials : Int
  metadata : String
deriving DecidableEq, Repr

/-- The values `store_batch_metadata` reads out of its `metadata` dict:
`metadata.get('factory_id')`, `metadata.get('test_run_count', 0)`,
`metadata.get('total_serials', 0)`, and the `json.dumps` of the whole
dict (kept opaque in `dumped`). -/
structure BatchMeta where
  factory_id : Option String
  test_run_count : Int
  total_serials : Int
  dumped : String
deriving DecidableEq, Repr

def store_batch_metadata (batch_id : String) (m : BatchMeta) (t : List BatchUploadRow) :
    List BatchUploadRow :=
  if t.any (fun r => r.id == batch_id) then
    t.map (fun r =>
      if r.id == batch_id then
        { r with metadata := m.dumped, test_run_count := m.test_run_count,
                 total_serials := m.total_serials }
      else r)
  else
    t ++ [⟨batch_id, m.factory_id, m.test_run_count, m.total_serials, m.dumped⟩]

/-! ### Mirrors of the row loop used to state its properties -/

/-- Number of data rows the loop counts: rows with at least two cells
whose trimmed week/year code converts to a date.  The loop increments its
counter for every such row, duplicates included. -/
def validRowCount : List (List String) → Nat
  | [] => 0
  | row :: rest =>
    match row with
    | _ :: cell1 :: _ =>
      if (convert_wwyy_to_date (pyStripStr cell1)).isSome
      then validRowCount rest + 1
      else validRowCount rest
    | _ => validRowCount rest

/-- The serial numbers the loop attempts to insert. -/
def validSerials : List (List String) → List String
  | [] => []
  | row :: rest =>
    match row with
    | cell0 :: cell1 :: _ =>
      if (convert_wwyy_to_date (pyStripStr cell1)).isSome
      then ("K1S-" ++ pyStripStr cell0) :: validSerials rest
      else validSerials rest
    | _ => validSerials rest

/-! ### Concrete backends and fixtures used by the witnesses -/

def stubEcdsa : EcdsaBackend :=
  ⟨fun _ => .error "load failure", fun _ => .error "bad base64",
   fun _ _ _ => .otherError "backend error"⟩

def okEcdsa : EcdsaBackend :=
  ⟨fun _ => .ok (.ecKey "M"), fun _ => .ok [1], fun _ _ _ => .valid⟩

def stubHmacTrue : HmacBackend := ⟨fun _ _ => [], fun _ => .ok []⟩

def stubHmacFalse : HmacBackend := ⟨fun _ _ => [0], fun _ => .ok []⟩

def demoRegistry : Registry := ⟨[⟨0, "F", "PEM", .approved, some 5, some "admin"⟩], 1⟩

def demoFile : UploadedFile := ⟨"h", [["device_id", "wwyy"], ["A1", "0124"]]⟩

def c1Payload : List (List String) := [["device_id", "wwyy"], ["A1", "0124"]]

def c5Registry : Registry :=
  ⟨[⟨0, "T", "K1", .approved, some 5, some "a"⟩,
    ⟨1, "T", "K2", .approved, some 9, some "a"⟩,
    ⟨2, "T", "K3", .pending, none, none⟩], 3⟩

def c7Row : BatchUploadRow := ⟨"B1", some "F1", 1, 0, "m1"⟩

def c7Meta : BatchMeta := ⟨some "F2", 2, 5, "m2"⟩

def c4Registry : Registry := ⟨[⟨1, "F", "K", .approved, some 5, some "a"⟩], 2⟩

/-- Device ids the claim calls non-canonical: a lowercase letter, any
character outside `[A-Z0-9]`, or length above 10. -/
def nonCanonicalDeviceId (d : String) : Bool :=
  d.data.any isAsciiLowerChar || d.data.any (fun c => !(isSerialBodyChar c)) ||
    decide (10 < d.data.length)

/-! ## Helper lemmas -/

theorem pyTruthy_of_ne (s : String) (h : s ≠ "") : pyTruthyStr (some s) = true := by
  simp [pyTruthyStr, h]

theorem add_serials_expired (E : EcdsaBackend) (H : HmacBackend) (now : Int)
    (sig ts fid : String) (tsInt : Int) (f? : Option UploadedFile)
    (reg : Registry) (t : SerialsTable)
    (hsig : sig ≠ "") (hts : ts ≠ "") (hfid : fid ≠ "")
    (hparse : parsePyInt ts = some tsInt) (hwin : 300 < (now - tsInt).natAbs) :
    add_serials E H now ⟨some sig, some ts, some fid, f?⟩ reg t = (.requestExpired, t) := by
  simp [add_serials, pyTruthy_of_ne _ hsig, pyTruthy_of_ne _ hts, pyTruthy_of_ne _ hfid,
    hparse, hwin]

theorem add_serials_unauthorized (E : EcdsaBackend) (H : HmacBackend) (now : Int)
    (sig ts fid : String) (tsInt : Int) (f : UploadedFile)
    (reg : Registry) (t : SerialsTable)
    (hsig : sig ≠ "") (hts : ts ≠ "") (hfid : fid ≠ "")
    (hparse : parsePyInt ts = some tsInt) (hwin : (now - tsInt).natAbs ≤ 300)
    (hver : (verify_signature_with_factory_key E H sig ts f.hash fid reg).1 = false) :
    add_serials E H now ⟨some sig, some ts, some fid, some f⟩ reg t = (.unauthorized, t) := by
  simp [add_serials, pyTruthy_of_ne _ hsig, pyTruthy_of_ne _ hts, pyTruthy_of_ne _ hfid,
    hparse, Nat.not_lt.mpr hwin, hver]

theorem add_serials_accepted (E : EcdsaBackend) (H : HmacBackend) (now : Int)
    (sig ts fid : String) (tsInt : Int) (f : UploadedFile)
    (reg : Registry) (t : SerialsTable)
    (hsig : sig ≠ "") (hts : ts ≠ "") (hfid : fid ≠ "")
    (hparse : parsePyInt ts = some tsInt) (hwin : (now - tsInt).natAbs ≤ 300)
    (hver : verify_signature_with_factory_key E H sig ts f.hash fid reg = (true, some fid)) :
    add_serials E H now ⟨some sig, some ts, some fid, some f⟩ reg t =
      (.success (ingestCsvRows fid f.rows t).2, (ingestCsvRows fid f.rows t).1) := by
  simp [add_serials, pyTruthy_of_ne _ hsig, pyTruthy_of_ne _ hts, pyTruthy_of_ne _ hfid,
    hparse, Nat.not_lt.mpr hwin, hver]

theorem verify_of_no_key (E : EcdsaBackend) (H : HmacBackend)
    (sig ts csvh fid : String) (reg : Registry)
    (h : get_factory_public_key_from_db fid reg = none) :
    verify_signature_with_factory_key E H sig ts csvh fid reg = (false, none) := by
  simp [verify_signature_with_factory_key, h]

/-! ## Claim theorems -/

/-- Claim C6 (confirmed): the replay window is exactly 300 seconds on
both sides.  A request whose parsed timestamp differs from the server
clock by more than 300 seconds is rejected as `requestExpired` with the
serials table untouched, before the file or signature are even looked at
(the rejection holds for every file field); within the window, a valid
signature leads to acceptance and ingestion. -/
theorem C6_replay_window (E : EcdsaBackend) (H : HmacBackend) (now : Int)
    (sig ts fid : String) (tsInt : Int) (f : UploadedFile)
    (reg : Registry) (t : SerialsTable)
    (hsig : sig ≠ "") (hts : ts ≠ "") (hfid : fid ≠ "")
    (hparse : parsePyInt ts = some tsInt) :
    (300 < (now - tsInt).natAbs →
       ∀ f? : Option UploadedFile,
         add_serials E H now ⟨some sig, some ts, some fid, f?⟩ reg t = (.requestExpired, t)) ∧
    ((now - tsInt).natAbs ≤ 300 →
       verify_signature_with_factory_key E H sig ts f.hash fid reg = (true, some fid) →
       add_serials E H now ⟨some sig, some ts, some fid, some f⟩ reg t =
         (.success (ingestCsvRows fid f.rows t).2, (ingestCsvRows fid f.rows t).1)) := by
  constructor
  · intro hwin f?
    exact add_serials_expired E H now sig ts fid tsInt f? reg t hsig hts hfid hparse hwin
  · intro hwin hver
    exact add_serials_accepted E H now sig ts fid tsInt f reg t hsig hts hfid hparse hwin hver

/-- Witness for C6: with the server clock at 1000, timestamp 699
(skew 301) is rejected as expired, while timestamp 701 (skew 299) with a
signature the legacy HMAC strategy accepts is ingested (one serial
added). -/
theorem C6_replay_window_witness :
    add_serials stubEcdsa stubHmacTrue 1000 ⟨some "s", some "699", some "F", some demoFile⟩
      demoRegistry [] = (.requestExpired, []) ∧
    add_serials stubEcdsa stubHmacTrue 1000 ⟨some "s", some "701", some "F", some demoFile⟩
      demoRegistry [] =
      (.success (ingestCsvRows "F" demoFile.rows []).2, (ingestCsvRows "F" demoFile.rows []).1) :=
  ⟨(C6_replay_window stubEcdsa stubHmacTrue 1000 "s" "699" "F" 699 demoFile demoRegistry []
      (by decide) (by decide) (by decide) (by decide)).1 (by decide) (some demoFile),
   (C6_replay_window stubEcdsa stubHmacTrue 1000 "s" "701" "F" 701 demoFile demoRegistry []
      (by decide) (by decide) (by decide) (by decide)).2 (by decide) (by decide)⟩

/-- Claim C9 (confirmed): when all three authentication headers are
present (non-empty) but the timestamp header is not parseable as a
decimal integer, `int(timestamp)` at src/server.py:212 raises outside
any handler, so the request ends as an uncaught `ValueError` (an
internal server error), not as a clean expired/missing-header
rejection. -/
theorem C9_bad_timestamp_uncaught (E : EcdsaBackend) (H : HmacBackend) (now : Int)
    (sig ts fid : String) (f? : Option UploadedFile) (reg : Registry) (t : SerialsTable)
    (hsig : sig ≠ "") (hts : ts ≠ "") (hfid : fid ≠ "")
    (hbad : parsePyInt ts = none) :
    add_serials E H now ⟨some sig, some ts, some fid, f?⟩ reg t = (.uncaughtValueError, t) ∧
    AddSerialsResult.uncaughtValueError ≠ .requestExpired ∧
    AddSerialsResult.uncaughtValueError ≠ .missingAuthHeaders ∧
    AddSerialsResult.uncaughtValueError ≠ .missingFactoryId := by
  refine ⟨?_, by decide, by decide, by decide⟩
  simp [add_serials, pyTruthy_of_ne _ hsig, pyTruthy_of_ne _ hts, pyTruthy_of_ne _ hfid, hbad]

/-- Witness for C9: the timestamp header "abc" with all headers present
yields the uncaught-exception outcome. -/
theorem C9_bad_timestamp_uncaught_witness :
    add_serials stubEcdsa stubHmacTrue 0 ⟨some "s", some "abc", some "F", none⟩
      demoRegistry [] = (.uncaughtValueError, []) :=
  (C9_bad_timestamp_uncaught stubEcdsa stubHmacTrue 0 "s" "abc" "F" none demoRegistry []
    (by decide) (by decide) (by decide) (by decide)).1

/-- Counterexample to claim C7: `store_batch_metadata` does not
overwrite the stored factory id.  With an existing row for batch "B1"
carrying factory id "F1", a new call carrying factory id "F2" updates
counts, totals and the metadata blob but leaves the `factory_id` column
at "F1". -/
theorem C7_counterexample :
    store_batch_metadata "B1" c7Meta [c7Row] = [⟨"B1", some "F1", 2, 5, "m2"⟩] ∧
    (⟨"B1", some "F1", 2, 5, "m2"⟩ : BatchUploadRow).factory_id ≠ c7Meta.factory_id := by
  decide

/-- Claim C7 as amended (proved): `recordBatchMetadata` is an upsert on
the batch id that overwrites the test-run count, totals and metadata
blob — but not the factory id, which keeps its originally inserted
value — inserting a fresh row when the id is absent, and after any call
exactly one row exists per batch id (id-uniqueness is preserved and the
id is present). -/
theorem C7_amended_upsert (bid : String) (m : BatchMeta) (t : List BatchUploadRow)
    (hnd : (t.map (fun r => r.id)).Nodup) :
    ((∀ r ∈ t, r.id ≠ bid) →
       store_batch_metadata bid m t =
         t ++ [⟨bid, m.factory_id, m.test_run_count, m.total_serials, m.dumped⟩]) ∧
    (∀ r ∈ store_batch_metadata bid m t, r.id = bid →
       r.test_run_count = m.test_run_count ∧ r.total_serials = m.total_serials ∧
       r.metadata = m.dumped) ∧
    (∀ r0 ∈ t, r0.id = bid → ∀ r ∈ store_batch_metadata bid m t, r.id = bid →
       r.factory_id = r0.factory_id) ∧
    ((store_batch_metadata bid m t).map (fun r => r.id)).Nodup ∧
    bid ∈ (store_batch_metadata bid m t).map (fun r => r.id) := by
  by_cases hex : t.any (fun r => r.id == bid) = true
  · obtain ⟨r0', hr0'mem, hr0'⟩ := List.any_eq_true.mp hex
    rw [beq_iff_eq] at hr0'
    have hmap : store_batch_metadata bid m t =
        t.map (fun r =>
          if r.id == bid then
            { r with metadata := m.dumped, test_run_count := m.test_run_count,
                     total_serials := m.total_serials }
          else r) := by
      simp [store_batch_metadata, hex]
    have hids : (store_batch_metadata bid m t).map (fun r => r.id) =
        t.map (fun r => r.id) := by
      rw [hmap, List.map_map]
      apply List.map_congr_left
      intro r _
      by_cases h : r.id = bid <;> simp [h]
    refine ⟨?_, ?_, ?_, ?_, ?_⟩
    · intro hall
      exact absurd hr0' (hall r0' hr0'mem)
    · intro r hr hrid
      rw [hmap] at hr
      obtain ⟨r1, hr1mem, hr1⟩ := List.mem_map.mp hr
      by_cases h : r1.id = bid
      · simp [h] at hr1
        subst hr1
        exact ⟨rfl, rfl, rfl⟩
      · simp [h] at hr1
        subst hr1
        exact absurd hrid h
    · intro r0 hr0mem hr0id r hr hrid
      rw [hmap] at hr
      obtain ⟨r1, hr1mem, hr1⟩ := List.mem_map.mp hr
      by_cases h : r1.id = bid
      · have : r1 = r0 := by
          apply List.inj_on_of_nodup_map hnd hr1mem hr0mem
          simp [h, hr0id]
        subst this
        simp [h] at hr1
        subst hr1
        rfl
      · simp [h] at hr1
        subst hr1
        exact absurd hrid h
    · rw [hids]; exact hnd
    · rw [hids]
      exact List.mem_map.mpr ⟨r0', hr0'mem, hr0'⟩
  · have hall : ∀ r ∈ t, r.id ≠ bid := by
      intro r hr
      have := List.any_eq_false.mp (Bool.eq_false_iff.mpr hex) r hr
      simpa using this
    have happ : store_batch_metadata bid m t =
        t ++ [⟨bid, m.factory_id, m.test_run_count, m.total_serials, m.dumped⟩] := by
      simp [store_batch_metadata, hex]
    refine ⟨fun _ => happ, ?_, ?_, ?_, ?_⟩
    · intro r hr hrid
      rw [happ] at hr
      rcases List.mem_append.mp hr with h | h
      · exact absurd hrid (hall r h)
      · rw [List.mem_singleton] at h
        subst h
        exact ⟨rfl, rfl, rfl⟩
    · intro r0 hr0mem hr0id
      exact absurd hr0id (hall r0 hr0mem)
    · rw [happ, List.map_append]
      simp only [List.map_cons, List.map_nil]
      rw [List.nodup_append]
      refine ⟨hnd, List.nodup_singleton _, ?_⟩
      intro a ha hb
      rw [List.mem_singleton] at hb
      subst hb
      obtain ⟨r, hrmem, hrid⟩ := List.mem_map.mp ha
      exact hall r hrmem hrid
    · rw [happ, List.map_append]
      simp

/-- Witness for C7: inserting into an empty table stores the new row
verbatim, and upserting over the existing `c7Row` keeps exactly one row
for batch "B1". -/
theorem C7_amended_upsert_witness :
    store_batch_metadata "B1" c7Meta [] =
      [⟨"B1", c7Meta.factory_id, c7Meta.test_run_count, c7Meta.total_serials, c7Meta.dumped⟩] ∧
    ("B1" : String) ∈ (store_batch_metadata "B1" c7Meta [c7Row]).map (fun r => r.id) :=
  ⟨by simpa using (C7_amended_upsert "B1" c7Meta [] (by decide)).1 (by decide),
   (C7_amended_upsert "B1" c7Meta [c7Row] (by decide)).2.2.2.2⟩

theorem hasSerial_append (t : SerialsTable) (r : SerialRow) (s : String) :
    hasSerial (t ++ [r]) s = (hasSerial t s || (r.serial_number == s)) := by
  simp [hasSerial, List.any_append]

theorem hasSerial_insert_mono (t : SerialsTable) (r : SerialRow) (s : String)
    (h : hasSerial t s = true) : hasSerial (insertSerialOrIgnore t r) s = true := by
  unfold insertSerialOrIgnore
  split
  · exact h
  · rw [hasSerial_append, h, Bool.true_or]

theorem hasSerial_insert_self (t : SerialsTable) (r : SerialRow) :
    hasSerial (insertSerialOrIgnore t r) r.serial_number = true := by
  unfold insertSerialOrIgnore
  split
  · assumption
  · rw [hasSerial_append]
    simp

theorem processRows_snd (a : String) (rows : List (List String)) :
    ∀ t, (processRows a rows t).2 = validRowCount rows := by
  induction rows with
  | nil => intro t; rfl
  | cons row rest ih =>
    intro t
    match row with
    | [] => simpa [processRows, validRowCount] using ih t
    | [c0] => simpa [processRows, validRowCount] using ih t
    | c0 :: c1 :: more =>
      cases h : convert_wwyy_to_date (pyStripStr c1) with
      | none => simp [processRows, validRowCount, h, ih t]
      | some d => simp [processRows, validRowCount, h, ih]

theorem processRows_mono (a : String) (rows : List (List String)) :
    ∀ t s, hasSerial t s = true → hasSerial (processRows a rows t).1 s = true := by
  induction rows with
  | nil => intro t s h; exact h
  | cons row rest ih =>
    intro t s h
    match row with
    | [] => simpa [processRows] using ih t s h
    | [c0] => simpa [processRows] using ih t s h
    | c0 :: c1 :: more =>
      cases hc : convert_wwyy_to_date (pyStripStr c1) with
      | none => simpa [processRows, hc] using ih t s h
      | some d =>
        simp only [processRows, hc]
        exact ih _ s (hasSerial_insert_mono t _ s h)

theorem processRows_contains (a : String) (rows : List (List String)) :
    ∀ t, ∀ s ∈ validSerials rows, hasSerial (processRows a rows t).1 s = true := by
  induction rows with
  | nil => intro t s hs; simp [validSerials] at hs
  | cons row rest ih =>
    intro t s hs
    match row with
    | [] =>
      simp only [validSerials] at hs
      simpa [processRows] using ih t s hs
    | [c0] =>
      simp only [validSerials] at hs
      simpa [processRows] using ih t s hs
    | c0 :: c1 :: more =>
      cases hc : convert_wwyy_to_date (pyStripStr c1) with
      | none =>
        simp only [validSerials, hc] at hs
        simp only [Option.isSome_none, Bool.false_eq_true, if_false] at hs
        simpa [processRows, hc] using ih t s hs
      | some d =>
        simp only [validSerials, hc, Option.isSome_some, if_true] at hs
        simp only [processRows, hc]
        rcases List.mem_cons.mp hs with h | h
        · subst h
          exact processRows_mono a rest _ _ (hasSerial_insert_self t _)
        · exact ih _ s h

theorem processRows_fst_id (a : String) (rows : List (List String)) :
    ∀ t, (∀ s ∈ validSerials rows, hasSerial t s = true) → (processRows a rows t).1 = t := by
  induction rows with
  | nil => intro t _; rfl
  | cons row rest ih =>
    intro t hall
    match row with
    | [] =>
      simp only [validSerials] at hall
      simpa [processRows] using ih t hall
    | [c0] =>
      simp only [validSerials] at hall
      simpa [processRows] using ih t hall
    | c0 :: c1 :: more =>
      cases hc : convert_wwyy_to_date (pyStripStr c1) with
      | none =>
        simp only [validSerials, hc, Option.isSome_none, Bool.false_eq_true, if_false] at hall
        simpa [processRows, hc] using ih t hall
      | some d =>
        simp only [validSerials, hc, Option.isSome_some, if_true] at hall
        have hhead : hasSerial t ("K1S-" ++ pyStripStr c0) = true :=
          hall _ (List.mem_cons_self _ _)
        have hins : insertSerialOrIgnore t ⟨"K1S-" ++ pyStripStr c0, d, a⟩ = t := by
          unfold insertSerialOrIgnore
          simp [hhead]
        simp only [processRows, hc, hins]
        exact ih t (fun s hs => hall s (List.mem_cons_of_mem _ hs))

theorem hasSerial_false_not_mem (t : SerialsTable) (s : String)
    (h : hasSerial t s = false) : s ∉ t.map (fun r => r.serial_number) := by
  intro hmem
  obtain ⟨r, hrmem, hrs⟩ := List.mem_map.mp hmem
  have htrue : hasSerial t s = true := by
    unfold hasSerial
    exact List.any_eq_true.mpr ⟨r, hrmem, by simp [hrs]⟩
  rw [h] at htrue
  exact Bool.false_ne_true htrue

theorem insert_keeps_nodup (t : SerialsTable) (r : SerialRow)
    (h : (t.map (fun r => r.serial_number)).Nodup) :
    ((insertSerialOrIgnore t r).map (fun r => r.serial_number)).Nodup := by
  unfold insertSerialOrIgnore
  split
  · exact h
  · rename_i hfalse
    rw [List.map_append]
    simp only [List.map_cons, List.map_nil]
    rw [List.nodup_append]
    refine ⟨h, List.nodup_singleton _, ?_⟩
    intro a ha hb
    rw [List.mem_singleton] at hb
    subst hb
    exact hasSerial_false_not_mem t r.serial_number (Bool.eq_false_iff.mpr hfalse) ha

theorem processRows_nodup (a : String) (rows : List (List String)) :
    ∀ t, (t.map (fun r => r.serial_number)).Nodup →
      ((processRows a rows t).1.map (fun r => r.serial_number)).Nodup := by
  induction rows with
  | nil => intro t h; exact h
  | cons row rest ih =>
    intro t h
    match row with
    | [] => simpa [processRows] using ih t h
    | [c0] => simpa [processRows] using ih t h
    | c0 :: c1 :: more =>
      cases hc : convert_wwyy_to_date (pyStripStr c1) with
      | none => simpa [processRows, hc] using ih t h
      | some d =>
        simp only [processRows, hc]
        exact ih _ (insert_keeps_nodup t _ h)

/-- Counterexample to claim C1: re-submitting an identical payload does
not report an added-count of 0.  The single-row payload `("A1","0124")`
reports 1 on first ingestion; ingesting the same payload again over the
resulting table still reports 1 — the loop counts every valid row, the
`ON CONFLICT DO NOTHING` insert silently skipping the duplicate — even
though `K1S-A1` already exists. -/
theorem C1_counterexample :
    (ingestCsvRows "F" c1Payload []).2 = 1 ∧
    hasSerial (ingestCsvRows "F" c1Payload []).1 "K1S-A1" = true ∧
    (ingestCsvRows "F" c1Payload ((ingestCsvRows "F" c1Payload []).1)).2 = 1 := by
  decide

/-- Claim C1 as amended (proved): re-ingesting an identical payload
reports the same added-count as the first ingestion — the count of valid
rows, not the count of genuinely-new serials — while leaving the table
exactly as after the first ingestion, and the table never acquires
duplicate `serial_number` primary keys. -/
theorem C1_amended_idempotent (prov : String) (payload : List (List String)) (t : SerialsTable)
    (hnd : (t.map (fun r => r.serial_number)).Nodup) :
    (ingestCsvRows prov payload t).2 = validRowCount payload.tail ∧
    (ingestCsvRows prov payload ((ingestCsvRows prov payload t).1)).2 =
      (ingestCsvRows prov payload t).2 ∧
    (ingestCsvRows prov payload ((ingestCsvRows prov payload t).1)).1 =
      (ingestCsvRows prov payload t).1 ∧
    ((ingestCsvRows prov payload t).1.map (fun r => r.serial_number)).Nodup := by
  simp only [ingestCsvRows]
  refine ⟨processRows_snd prov payload.tail t, ?_, ?_, processRows_nodup prov payload.tail t hnd⟩
  · rw [processRows_snd prov payload.tail, processRows_snd prov payload.tail]
  · exact processRows_fst_id prov payload.tail _
      (fun s hs => processRows_contains prov payload.tail t s hs)

/-- Witness for C1 (amended): the concrete two-ingestion run of
`c1Payload` from the empty table. -/
theorem C1_amended_idempotent_witness :
    (ingestCsvRows "F" c1Payload []).2 = validRowCount c1Payload.tail ∧
    (ingestCsvRows "F" c1Payload ((ingestCsvRows "F" c1Payload []).1)).1 =
      (ingestCsvRows "F" c1Payload []).1 :=
  ⟨(C1_amended_idempotent "F" c1Payload [] (by decide)).1,
   (C1_amended_idempotent "F" c1Payload [] (by decide)).2.2.1⟩

theorem find?_append_left_none {α : Type} {p : α → Bool} (l1 l2 : List α)
    (h : l1.find? p = none) : (l1 ++ l2).find? p = l2.find? p := by
  rw [List.find?_append, h, Option.none_or]

/-- Claim C3 (confirmed): registering a fresh, structurally valid public
key inserts a new `pending` record with the next id; registering the
same key again — under any tenant name — returns the existing record's
id and status and leaves the registry unchanged; key-uniqueness of the
registry is established and preserved. -/
theorem C3_idempotent_registration (validKey : String → Bool) (fn1 fn2 pk : String)
    (reg : Registry)
    (h1 : fn1 ≠ "") (h2 : fn2 ≠ "") (hpk : pk ≠ "") (hv : validKey pk = true)
    (hfresh : ∀ r ∈ reg.rows, r.public_key ≠ pk)
    (hnd : (reg.rows.map (fun r => r.public_key)).Nodup) :
    (register_public_key validKey fn1 pk reg).1 = .submitted reg.nextId ∧
    (register_public_key validKey fn1 pk reg).2.rows =
      reg.rows ++ [⟨reg.nextId, fn1, pk, .pending, none, none⟩] ∧
    register_public_key validKey fn2 pk (register_public_key validKey fn1 pk reg).2 =
      (.alreadyRegistered reg.nextId .pending, (register_public_key validKey fn1 pk reg).2) ∧
    ((register_public_key validKey fn1 pk reg).2.rows.map (fun r => r.public_key)).Nodup ∧
    (∀ reg1 : Registry, (reg1.rows.map (fun r => r.public_key)).Nodup →
       ((register_public_key validKey fn2 pk reg1).2.rows.map (fun r => r.public_key)).Nodup) := by
  have hfind : reg.rows.find? (fun r => r.public_key == pk) = none :=
    List.find?_eq_none.mpr (fun r hr => by simp [hfresh r hr])
  have hreg1 : register_public_key validKey fn1 pk reg =
      (.submitted reg.nextId,
       ⟨reg.rows ++ [⟨reg.nextId, fn1, pk, .pending, none, none⟩], reg.nextId + 1⟩) := by
    simp [register_public_key, h1, hpk, hv, hfind]
  have hfind2 : (reg.rows ++ [(⟨reg.nextId, fn1, pk, .pending, none, none⟩ : KeyRegistration)]).find?
      (fun r => r.public_key == pk) = some ⟨reg.nextId, fn1, pk, .pending, none, none⟩ := by
    rw [find?_append_left_none _ _ hfind]
    simp [List.find?_cons]
  have hnotmem : pk ∉ reg.rows.map (fun r => r.public_key) := by
    intro hmem
    obtain ⟨r, hrmem, hrs⟩ := List.mem_map.mp hmem
    exact hfresh r hrmem hrs
  refine ⟨by rw [hreg1], by rw [hreg1], ?_, ?_, ?_⟩
  · rw [hreg1]
    simp [register_public_key, h2, hpk, hv, hfind2]
  · rw [hreg1]
    simp only [List.map_append, List.map_cons, List.map_nil]
    rw [List.nodup_append]
    refine ⟨hnd, List.nodup_singleton _, ?_⟩
    intro a ha hb
    rw [List.mem_singleton] at hb
    subst hb
    exact hnotmem ha
  · intro reg1 hnd1
    by_cases hg : fn2 = "" ∨ pk = ""
    · simp [register_public_key, hg, hnd1]
    · cases hf1 : reg1.rows.find? (fun r => r.public_key == pk) with
      | some r => simp [register_public_key, hg, hv, hf1, hnd1]
      | none =>
        have hnm1 : pk ∉ reg1.rows.map (fun r => r.public_key) := by
          intro hmem
          obtain ⟨r, hrmem, hrs⟩ := List.mem_map.mp hmem
          have := List.find?_eq_none.mp hf1 r hrmem
          simp [hrs] at this
        simp only [register_public_key, hg, if_false, hv, Bool.true_eq_false, hf1]
        simp only [List.map_append, List.map_cons, List.map_nil]
        rw [List.nodup_append]
        refine ⟨hnd1, List.nodup_singleton _, ?_⟩
        intro a ha hb
        rw [List.mem_singleton] at hb
        subst hb
        exact hnm1 ha

/-- Witness for C3: a fresh key "K" registered by tenant "A" gets id 0
with status pending; tenant "B" re-registering "K" gets back id 0 and
pending on an unchanged registry. -/
theorem C3_idempotent_registration_witness :
    (register_public_key (fun _ => true) "A" "K" ⟨[], 0⟩).1 = .submitted 0 ∧
    register_public_key (fun _ => true) "B" "K"
        (register_public_key (fun _ => true) "A" "K" ⟨[], 0⟩).2 =
      (.alreadyRegistered 0 .pending, (register_public_key (fun _ => true) "A" "K" ⟨[], 0⟩).2) :=
  ⟨(C3_idempotent_registration (fun _ => true) "A" "B" "K" ⟨[], 0⟩
      (by decide) (by decide) (by decide) rfl (by simp) (by simp)).1,
   (C3_idempotent_registration (fun _ => true) "A" "B" "K" ⟨[], 0⟩
      (by decide) (by decide) (by decide) rfl (by simp) (by simp)).2.2.1⟩

/-- Claim C4 (confirmed): revoke only succeeds on a record that is
currently approved (otherwise it reports not-found and changes nothing);
on success it resets the record to `pending` with cleared approval
metadata without deleting anything (row count preserved, unrelated rows
untouched), and — when the revoked registration was the tenant's only
approved one — the tenant's key no longer resolves, so a subsequent
authentication attempt ends `unauthorized`. -/
theorem C4_revoke_guarded (rid : Nat) (reg : Registry) :
    (reg.rows.find? (fun x => x.id == rid && x.status == RegStatus.approved) = none →
       revoke_registration_request rid reg = (.notFound, reg)) ∧
    (∀ r, reg.rows.find? (fun x => x.id == rid && x.status == RegStatus.approved) = some r →
       (revoke_registration_request rid reg).1 = .ok r.factory_name ∧
       (revoke_registration_request rid reg).2.rows.length = reg.rows.length ∧
       (⟨r.id, r.factory_name, r.public_key, .pending, none, none⟩ : KeyRegistration) ∈
         (revoke_registration_request rid reg).2.rows ∧
       (∀ x ∈ reg.rows, x.id ≠ rid → x ∈ (revoke_registration_request rid reg).2.rows) ∧
       ((∀ x ∈ reg.rows, x.factory_name = r.factory_name → x.status = .approved → x.id = rid) →
          get_factory_public_key_from_db r.factory_name
            (revoke_registration_request rid reg).2 = none ∧
          (∀ E H sig ts csvh,
             verify_signature_with_factory_key E H sig ts csvh r.factory_name
               (revoke_registration_request rid reg).2 = (false, none)) ∧
          (∀ E H now tsInt sig ts f t, sig ≠ "" → ts ≠ "" → r.factory_name ≠ "" →
             parsePyInt ts = some tsInt → (now - tsInt).natAbs ≤ 300 →
             add_serials E H now ⟨some sig, some ts, some r.factory_name, some f⟩
               (revoke_registration_request rid reg).2 t = (.unauthorized, t)))) := by
  constructor
  · intro hfind
    simp [revoke_registration_request, hfind]
  · intro r hfind
    have hrmem : r ∈ reg.rows := List.mem_of_find?_eq_some hfind
    have hpred : (r.id == rid && r.status == RegStatus.approved) = true := by
      have h := List.find?_some hfind
      simpa using h
    have hrev : revoke_registration_request rid reg =
        (.ok r.factory_name,
         ⟨reg.rows.map (fun x =>
            if x.id == rid && x.status == RegStatus.approved then
              { x with status := .pending, approved_at := none, approved_by := none }
            else x),
          reg.nextId⟩) := by
      simp [revoke_registration_request, hfind]
    refine ⟨by rw [hrev], by rw [hrev]; simp, ?_, ?_, ?_⟩
    · rw [hrev]
      have : ({ r with status := RegStatus.pending, approved_at := none, approved_by := none } : KeyRegistration) ∈
          reg.rows.map (fun x =>
            if x.id == rid && x.status == RegStatus.approved then
              { x with status := .pending, approved_at := none, approved_by := none }
            else x) := by
        refine List.mem_map.mpr ⟨r, hrmem, ?_⟩
        rw [if_pos hpred]
      exact this
    · intro x hxmem hxid
      rw [hrev]
      refine List.mem_map.mpr ⟨x, hxmem, ?_⟩
      have : (x.id == rid) = false := by simp [hxid]
      rw [this, Bool.false_and, if_neg (by simp)]
    · intro hno
      have hfilter : ((revoke_registration_request rid reg).2.rows.filter
          (fun x => x.factory_name == r.factory_name && x.status == RegStatus.approved)) = [] := by
        rw [hrev]
        rw [List.filter_eq_nil_iff]
        intro y hy
        obtain ⟨x, hxmem, hxy⟩ := List.mem_map.mp hy
        by_cases hx : (x.id == rid && x.status == RegStatus.approved) = true
        · rw [if_pos hx] at hxy
          subst hxy
          simp
        · rw [if_neg hx] at hxy
          subst hxy
          intro hcontra
          rw [Bool.and_eq_true, beq_iff_eq, beq_iff_eq] at hcontra
          have hxid := hno x hxmem hcontra.1 hcontra.2
          rw [Bool.and_eq_true] at hx
          exact hx ⟨by simp [hxid], by simp [hcontra.2]⟩
      have hres : get_factory_public_key_from_db r.factory_name
          (revoke_registration_request rid reg).2 = none := by
        unfold get_factory_public_key_from_db
        rw [hfilter]
        rfl
      refine ⟨hres, fun E H sig ts csvh => verify_of_no_key E H sig ts csvh _ _ hres, ?_⟩
      intro E H now tsInt sig ts f t hsig hts hfn hparse hwin
      refine add_serials_unauthorized E H now sig ts r.factory_name tsInt f _ t
        hsig hts hfn hparse hwin ?_
      rw [verify_of_no_key E H sig ts f.hash r.factory_name _ hres]

/-- Witness for C4: revoking id 2 (absent) reports not-found on an
unchanged registry; revoking the approved id 1 reports its tenant "F",
after which "F" resolves to no key and an otherwise well-formed upload
for "F" is rejected as unauthorized. -/
theorem C4_revoke_guarded_witness :
    revoke_registration_request 2 c4Registry = (.notFound, c4Registry) ∧
    (revoke_registration_request 1 c4Registry).1 = .ok "F" ∧
    get_factory_public_key_from_db "F" (revoke_registration_request 1 c4Registry).2 = none ∧
    add_serials stubEcdsa stubHmacTrue 1000 ⟨some "s", some "701", some "F", some demoFile⟩
      (revoke_registration_request 1 c4Registry).2 [] = (.unauthorized, []) := by
  have h2 := (C4_revoke_guarded 2 c4Registry).1 (by decide)
  have h1 := (C4_revoke_guarded 1 c4Registry).2 ⟨1, "F", "K", .approved, some 5, some "a"⟩
    (by decide)
  have hinner := h1.2.2.2.2 (by decide)
  exact ⟨h2, h1.1, hinner.1,
    hinner.2.2 stubEcdsa stubHmacTrue 1000 701 "s" "701" demoFile []
      (by decide) (by decide) (by decide) (by decide) (by decide)⟩

theorem pickNewest_mem : ∀ (l : List KeyRegistration) (r : KeyRegistration),
    pickNewestApproval l = some r → r ∈ l := by
  intro l
  induction l with
  | nil => intro r h; simp [pickNewestApproval] at h
  | cons x rest ih =>
    intro r h
    simp only [pickNewestApproval] at h
    cases hrest : pickNewestApproval rest with
    | none =>
      rw [hrest] at h
      simp only [Option.some.injEq] at h
      subst h
      exact List.mem_cons_self x rest
    | some b =>
      rw [hrest] at h
      have h2 : (if aaPreferred b.approved_at x.approved_at then some b else some x) = some r := h
      by_cases hp : aaPreferred b.approved_at x.approved_at = true
      · rw [if_pos hp] at h2
        simp only [Option.some.injEq] at h2
        subst h2
        exact List.mem_cons_of_mem x (ih b hrest)
      · rw [if_neg hp] at h2
        simp only [Option.some.injEq] at h2
        subst h2
        exact List.mem_cons_self x rest

theorem pickNewest_strict_max (r : KeyRegistration) (a : Nat) :
    ∀ l : List KeyRegistration, r ∈ l → r.approved_at = some a →
      (∀ x ∈ l, x ≠ r → ∃ b, x.approved_at = some b ∧ b < a) →
      pickNewestApproval l = some r := by
  intro l
  induction l with
  | nil => intro hmem; exact absurd hmem (List.not_mem_nil r)
  | cons x rest ih =>
    intro hmem hra hother
    by_cases hx : x = r
    · subst hx
      by_cases hrrest : x ∈ rest
      · have hrec : pickNewestApproval rest = some x :=
          ih hrrest hra (fun y hy hne => hother y (List.mem_cons_of_mem x hy) hne)
        simp only [pickNewestApproval, hrec, hra, aaPreferred]
        simp
      · simp only [pickNewestApproval]
        cases hrest : pickNewestApproval rest with
        | none => rfl
        | some y =>
          have hymem : y ∈ rest := pickNewest_mem rest y hrest
          have hyne : y ≠ x := fun h => hrrest (h ▸ hymem)
          obtain ⟨b, hyb, hblt⟩ := hother y (List.mem_cons_of_mem x hymem) hyne
          show (if aaPreferred y.approved_at x.approved_at then some y else some x) = some x
          rw [hyb, hra]
          simp only [aaPreferred]
          rw [if_neg (by simpa using Nat.not_lt.mpr (Nat.le_of_lt hblt))]
    · have hrrest : r ∈ rest := by
        rcases List.mem_cons.mp hmem with h | h
        · exact absurd h.symm hx
        · exact h
      have hrec : pickNewestApproval rest = some r :=
        ih hrrest hra (fun y hy hne => hother y (List.mem_cons_of_mem x hy) hne)
      obtain ⟨b, hxb, hblt⟩ := hother x (List.mem_cons_self x rest) hx
      simp only [pickNewestApproval, hrec, hra, hxb, aaPreferred]
      rw [if_pos (by simpa using hblt)]

/-- Claim C5 (confirmed): resolving a tenant's key returns the key
material of the approved registration with the strictly newest
`approved_at` among that tenant's approved registrations; a tenant with
no approved registration resolves to no key, and an otherwise
well-formed authenticated request for that tenant is rejected
`unauthorized`. -/
theorem C5_resolve_newest (tenant : String) (reg : Registry) :
    (∀ r a, r ∈ reg.rows → r.factory_name = tenant → r.status = .approved →
       r.approved_at = some a →
       (∀ x ∈ reg.rows, x ≠ r → x.factory_name = tenant → x.status = .approved →
          ∃ b, x.approved_at = some b ∧ b < a) →
       get_factory_public_key_from_db tenant reg = some r.public_key) ∧
    ((∀ x ∈ reg.rows, x.factory_name = tenant → x.status ≠ .approved) →
       get_factory_public_key_from_db tenant reg = none ∧
       (∀ E H sig ts csvh,
          verify_signature_with_factory_key E H sig ts csvh tenant reg = (false, none)) ∧
       (∀ E H now tsInt sig ts f t, sig ≠ "" → ts ≠ "" → tenant ≠ "" →
          parsePyInt ts = some tsInt → (now - tsInt).natAbs ≤ 300 →
          add_serials E H now ⟨some sig, some ts, some tenant, some f⟩ reg t =
            (.unauthorized, t))) := by
  constructor
  · intro r a hrmem hrname hrstatus hra hother
    have hrf : r ∈ reg.rows.filter
        (fun x => x.factory_name == tenant && x.status == RegStatus.approved) :=
      List.mem_filter.mpr ⟨hrmem, by simp [hrname, hrstatus]⟩
    have hpick : pickNewestApproval (reg.rows.filter
        (fun x => x.factory_name == tenant && x.status == RegStatus.approved)) = some r := by
      refine pickNewest_strict_max r a _ hrf hra ?_
      intro x hx hne
      have hx2 := List.mem_filter.mp hx
      have hprops : x.factory_name = tenant ∧ x.status = RegStatus.approved := by
        have := hx2.2
        simp only [Bool.and_eq_true, beq_iff_eq] at this
        exact this
      exact hother x hx2.1 hne hprops.1 hprops.2
    unfold get_factory_public_key_from_db
    rw [hpick]
    rfl
  · intro hnone
    have hfilter : reg.rows.filter
        (fun x => x.factory_name == tenant && x.status == RegStatus.approved) = [] := by
      rw [List.filter_eq_nil_iff]
      intro x hx
      intro hcontra
      simp only [Bool.and_eq_true, beq_iff_eq] at hcontra
      exact hnone x hx hcontra.1 hcontra.2
    have hres : get_factory_public_key_from_db tenant reg = none := by
      unfold get_factory_public_key_from_db
      rw [hfilter]
      rfl
    refine ⟨hres, fun E H sig ts csvh => verify_of_no_key E H sig ts csvh _ _ hres, ?_⟩
    intro E H now tsInt sig ts f t hsig hts htenant hparse hwin
    refine add_serials_unauthorized E H now sig ts tenant tsInt f _ t
      hsig hts htenant hparse hwin ?_
    rw [verify_of_no_key E H sig ts f.hash tenant _ hres]

/-- Witness for C5: in `c5Registry`, tenant "T" has approvals stamped 5
and 9; resolution returns the key "K2" approved at 9.  Tenant "U" has no
approved registration: resolution returns nothing and a well-formed
upload for "U" ends unauthorized. -/
theorem C5_resolve_newest_witness :
    get_factory_public_key_from_db "T" c5Registry = some "K2" ∧
    get_factory_public_key_from_db "U" c5Registry = none ∧
    add_serials stubEcdsa stubHmacTrue 1000 ⟨some "s", some "701", some "U", some demoFile⟩
      c5Registry [] = (.unauthorized, []) := by
  have h1 := (C5_resolve_newest "T" c5Registry).1 ⟨1, "T", "K2", .approved, some 9, some "a"⟩ 9
    (by decide) (by decide) (by decide) (by decide) (by decide)
  have h2 := (C5_resolve_newest "U" c5Registry).2 (by decide)
  exact ⟨h1, h2.1,
    h2.2.2 stubEcdsa stubHmacTrue 1000 701 "s" "701" demoFile []
      (by decide) (by decide) (by decide) (by decide) (by decide)⟩

/-- Claim C8 (confirmed): the signature verifier is total and tries the
strategies in a fixed order.  Every failing cryptographic step — PEM
load failure, non-EC key, malformed base64 signature, invalid digest —
yields a `(false, reason)` result value rather than escaping; the
combined verifier always returns one of the two clean values; the
asymmetric ECDSA strategy is consulted first (its success decides the
outcome for every HMAC backend), and the shared-secret HMAC strategy
second. -/
theorem C8_verifier_total_ordered (E : EcdsaBackend) (H H2 : HmacBackend)
    (pem msg sigB64 : String) (sig ts csvh fid : String) (reg : Registry) :
    (∀ e, E.load_pem_public_key pem = .error e →
       verify_ecdsa_signature E pem msg sigB64 = (false, some e)) ∧
    (∀ mat, E.load_pem_public_key pem = .ok (.otherKey mat) →
       verify_ecdsa_signature E pem msg sigB64 = (false, some "Public key is not an EC key")) ∧
    (∀ mat e, E.load_pem_public_key pem = .ok (.ecKey mat) → E.b64decode sigB64 = .error e →
       verify_ecdsa_signature E pem msg sigB64 = (false, some e)) ∧
    (∀ mat bs, E.load_pem_public_key pem = .ok (.ecKey mat) → E.b64decode sigB64 = .ok bs →
       E.verify mat msg bs = .invalidSignature →
       verify_ecdsa_signature E pem msg sigB64 = (false, some "Invalid signature")) ∧
    (∀ e, H.b64decode sigB64 = .error e →
       verify_hmac_signature H msg sigB64 flutterSecret = (false, some e)) ∧
    (verify_signature_with_factory_key E H sig ts csvh fid reg = (true, some fid) ∨
     verify_signature_with_factory_key E H sig ts csvh fid reg = (false, none)) ∧
    (∀ pem2, get_factory_public_key_from_db fid reg = some pem2 →
       (verify_ecdsa_signature E pem2 (create_signature_message ts csvh) sig).1 = true →
       verify_signature_with_factory_key E H sig ts csvh fid reg = (true, some fid) ∧
       verify_signature_with_factory_key E H2 sig ts csvh fid reg =
         verify_signature_with_factory_key E H sig ts csvh fid reg) ∧
    (∀ pem2, get_factory_public_key_from_db fid reg = some pem2 →
       (verify_ecdsa_signature E pem2 (create_signature_message ts csvh) sig).1 = false →
       (verify_hmac_signature H (create_signature_message ts csvh) sig flutterSecret).1 = true →
       verify_signature_with_factory_key E H sig ts csvh fid reg = (true, some fid)) := by
  refine ⟨?_, ?_, ?_, ?_, ?_, ?_, ?_, ?_⟩
  · intro e he
    simp [verify_ecdsa_signature, he]
  · intro mat hm
    simp [verify_ecdsa_signature, hm]
  · intro mat e hm he
    simp [verify_ecdsa_signature, hm, he]
  · intro mat bs hm hb hv
    simp [verify_ecdsa_signature, hm, hb, hv]
  · intro e he
    simp [verify_hmac_signature, he]
  · cases hk : get_factory_public_key_from_db fid reg with
    | none => right; simp [verify_signature_with_factory_key, hk]
    | some pem2 =>
      by_cases he : (verify_ecdsa_signature E pem2 (create_signature_message ts csvh) sig).1 = true
      · left; simp [verify_signature_with_factory_key, hk, he]
      · by_cases hh :
          (verify_hmac_signature H (create_signature_message ts csvh) sig flutterSecret).1 = true
        · left
          simp [verify_signature_with_factory_key, hk, he, hh]
        · right
          simp [verify_signature_with_factory_key, hk, he, hh]
  · intro pem2 hk he
    constructor
    · simp [verify_signature_with_factory_key, hk, he]
    · simp [verify_signature_with_factory_key, hk, he]
  · intro pem2 hk he hh
    simp [verify_signature_with_factory_key, hk, he, hh]

/-- Witness for C8: the stub backend whose PEM loader fails yields the
clean failure value; with `demoRegistry` resolving key "PEM" for "F",
the always-valid ECDSA backend authenticates identically under two
different HMAC backends, and a failing ECDSA backend falls through to a
succeeding HMAC verification. -/
theorem C8_verifier_total_ordered_witness :
    verify_ecdsa_signature stubEcdsa "p" "m" "s" = (false, some "load failure") ∧
    verify_signature_with_factory_key okEcdsa stubHmacFalse "s" "701" "h" "F" demoRegistry =
      (true, some "F") ∧
    verify_signature_with_factory_key okEcdsa stubHmacTrue "s" "701" "h" "F" demoRegistry =
      verify_signature_with_factory_key okEcdsa stubHmacFalse "s" "701" "h" "F" demoRegistry ∧
    verify_signature_with_factory_key stubEcdsa stubHmacTrue "s" "701" "h" "F" demoRegistry =
      (true, some "F") := by
  have h := C8_verifier_total_ordered okEcdsa stubHmacFalse stubHmacTrue
    "p" "m" "s" "s" "701" "h" "F" demoRegistry
  have h2 := C8_verifier_total_ordered stubEcdsa stubHmacTrue stubHmacTrue
    "p" "m" "s" "s" "701" "h" "F" demoRegistry
  have hord := h.2.2.2.2.2.2.1 "PEM" (by decide) (by decide)
  refine ⟨h2.1 "load failure" rfl, hord.1, hord.2, ?_⟩
  exact h2.2.2.2.2.2.2.2 "PEM" (by decide) (by decide) (by decide)

theorem lower_not_body (c : Char) (h : isAsciiLowerChar c = true) :
    isSerialBodyChar c = false := by
  simp only [isAsciiLowerChar, Bool.and_eq_true, decide_eq_true_eq] at h
  rw [Bool.eq_false_iff]
  intro hb
  simp only [isSerialBodyChar, Bool.or_eq_true, Bool.and_eq_true, decide_eq_true_eq] at hb
  omega

theorem serialPattern_k1s_false (d : List Char)
    (hbad : 10 < d.length ∨ ∃ c ∈ d, isSerialBodyChar c = false) :
    serialPatternChars ('K' :: '1' :: 'S' :: '-' :: d) = false := by
  simp only [serialPatternChars]
  rcases hbad with h | ⟨c, hc, hcf⟩
  · have hlen : decide (d.length ≤ 10) = false := by
      simp [Nat.not_le.mpr h]
    rw [hlen]
    simp
  · have hall : d.all isSerialBodyChar = false := by
      rw [Bool.eq_false_iff]
      intro hcontra
      have := List.all_eq_true.mp hcontra c hc
      rw [hcf] at this
      exact Bool.false_ne_true this
    rw [hall]
    simp

/-- Claim C10 (confirmed): a serial stored for a non-canonical device id
(one containing a lowercase letter, a character outside `[A-Z0-9]`, or
more than 10 characters) can never be returned by the public
verification lookup: the lookup strips, upper-cases and
pattern-restricts its query before the exact-match lookup, so the row
whose key is `"K1S-" ++ d` is unreachable. -/
theorem C10_noncanonical_unreachable (d : String) (hbad : nonCanonicalDeviceId d = true)
    (q : String) (t : SerialsTable) (r : SerialRow)
    (h : verify_serial q t = some r) :
    r.serial_number ≠ "K1S-" ++ d := by
  have hbad2 : 10 < d.data.length ∨ ∃ c ∈ d.data, isSerialBodyChar c = false := by
    simp only [nonCanonicalDeviceId, Bool.or_eq_true, decide_eq_true_eq] at hbad
    rcases hbad with (h1 | h2) | h3
    · obtain ⟨c, hc, hcl⟩ := List.any_eq_true.mp h1
      exact Or.inr ⟨c, hc, lower_not_body c hcl⟩
    · obtain ⟨c, hc, hcb⟩ := List.any_eq_true.mp h2
      rw [Bool.not_eq_eq_eq_not, Bool.not_true] at hcb
      exact Or.inr ⟨c, hc, hcb⟩
    · exact Or.inl h3
  unfold verify_serial at h
  by_cases hp : serialPatternChars (String.mk (pyUpper (pyStrip q.data))).data = true
  · rw [if_pos hp] at h
    have hpred := List.find?_some h
    have heq : r.serial_number = String.mk (pyUpper (pyStrip q.data)) := by
      simpa using hpred
    intro hcontra
    rw [hcontra] at heq
    rw [← heq] at hp
    have : serialPatternChars ("K1S-" ++ d).data = true := hp
    rw [String.data_append] at this
    have hfalse := serialPattern_k1s_false d.data hbad2
    have : serialPatternChars ('K' :: '1' :: 'S' :: '-' :: d.data) = true := this
    rw [hfalse] at this
    exact Bool.false_ne_true this
  · rw [if_neg hp] at h
    exact absurd h (by simp)

/-- Witness for C10: with the table holding both the canonical serial
`K1S-AB` and the non-canonical `K1S-ab`, the query "k1s-ab" normalizes
to `K1S-AB` and returns the canonical row — never the row keyed
`K1S-ab`. -/
theorem C10_noncanonical_unreachable_witness :
    verify_serial "k1s-ab" [⟨"K1S-AB", ⟨2024, 1, 1⟩, "F"⟩, ⟨"K1S-ab", ⟨2024, 1, 1⟩, "F"⟩] =
      some ⟨"K1S-AB", ⟨2024, 1, 1⟩, "F"⟩ ∧
    (⟨"K1S-AB", ⟨2024, 1, 1⟩, "F"⟩ : SerialRow).serial_number ≠ "K1S-" ++ "ab" :=
  ⟨by decide,
   C10_noncanonical_unreachable "ab" (by decide) "k1s-ab"
     [⟨"K1S-AB", ⟨2024, 1, 1⟩, "F"⟩, ⟨"K1S-ab", ⟨2024, 1, 1⟩, "F"⟩]
     ⟨"K1S-AB", ⟨2024, 1, 1⟩, "F"⟩ (by decide)⟩

/-- Counterexample to claim C2: the code "4023" yields the date
2023-10-02 — week 40 of year 2023 (2000 + 23), not of 2024 as the claim
states.  Moreover the computation is not ISO-week based: "4025" yields
ordinal 739530 (2025-10-06), which does not lie in the seven days
starting at the first day of ISO week 40 of 2025 (ordinal 739523,
2025-09-29). -/
theorem C2_counterexample :
    convert_wwyy_to_date "4023" = some ⟨2023, 10, 2⟩ ∧
    (2023 : Nat) ≠ 2024 ∧
    convert_wwyy_to_ordinal "4025" = some 739530 ∧
    specIsoWeekFirstDay 2025 40 = 739523 ∧
    ¬(739523 ≤ 739530 ∧ 739530 ≤ 739523 + 6) := by
  decide

/-- Claim C2 as amended (proved): the code is read as `WWYY` — week =
first two digits, year = 2000 + the remaining digits — and for weeks
1–53 the derived date is the Monday of week `WW` in Python `%W`
numbering (weeks counted from the first Monday of the year).  That
Monday coincides with the first day of ISO week `WW` exactly when
January 1 falls on Monday, Friday, Saturday or Sunday (so "4023", year
2023, does land in ISO week 40, but the general "ISO week" reading is
wrong).  An invalid week such as "9999" converts to `None` and the row
loop skips the row without failing. -/
theorem C2_amended_wwyy (s : String) (week yy : Nat)
    (hw : parsePyIntChars ((pyZfill 4 s.data).take 2) = some (week : Int))
    (hy : parsePyIntChars ((pyZfill 4 s.data).drop 2) = some (yy : Int))
    (h1 : 1 ≤ week) (h53 : week ≤ 53) (hyy : yy ≤ 7999) :
    convert_wwyy_to_ordinal s =
      some (jan1Ordinal (2000 + yy) + (7 - weekdayMon0 (jan1Ordinal (2000 + yy))) % 7 +
        7 * (week - 1)) ∧
    weekdayMon0 (jan1Ordinal (2000 + yy) + (7 - weekdayMon0 (jan1Ordinal (2000 + yy))) % 7 +
        7 * (week - 1)) = 0 ∧
    (weekdayMon0 (jan1Ordinal (2000 + yy)) = 0 ∨ 4 ≤ weekdayMon0 (jan1Ordinal (2000 + yy)) →
       jan1Ordinal (2000 + yy) + (7 - weekdayMon0 (jan1Ordinal (2000 + yy))) % 7 +
         7 * (week - 1) = specIsoWeekFirstDay (2000 + yy) week) ∧
    convert_wwyy_to_date "9999" = none ∧
    (∀ fa c rest t, processRows fa ([c, "9999"] :: rest) t = processRows fa rest t) := by
  have hcast : ((2000 : Int) + (yy : Int)).toNat = 2000 + yy := by omega
  have hwk : ((week : Int)).toNat = week := by omega
  refine ⟨?_, ?_, ?_, by decide, ?_⟩
  · simp only [convert_wwyy_to_ordinal, hw, hy]
    rw [if_pos (by omega)]
    rw [if_neg (by omega)]
    rw [hcast, hwk]
  · simp only [weekdayMon0]
    generalize jan1Ordinal (2000 + yy) = n
    omega
  · intro hfw
    simp only [weekdayMon0, specIsoWeekFirstDay] at hfw ⊢
    generalize jan1Ordinal (2000 + yy) = n at hfw ⊢
    omega
  · intro fa c rest t
    have hnone : convert_wwyy_to_date (pyStripStr "9999") = none := by decide
    simp [processRows, hnone]

/-- Witness for C2 (amended): the code "4023" — week 40, year 2023 —
evaluated through the theorem, with the resulting ordinal a Monday. -/
theorem C2_amended_wwyy_witness :
    convert_wwyy_to_ordinal "4023" =
      some (jan1Ordinal (2000 + 23) + (7 - weekdayMon0 (jan1Ordinal (2000 + 23))) % 7 +
        7 * (40 - 1)) ∧
    weekdayMon0 (jan1Ordinal (2000 + 23) + (7 - weekdayMon0 (jan1Ordinal (2000 + 23))) % 7 +
        7 * (40 - 1)) = 0 :=
  ⟨(C2_amended_wwyy "4023" 40 23 (by decide) (by decide) (by decide) (by decide) (by decide)).1,
   (C2_amended_wwyy "4023" 40 23 (by decide) (by decide) (by decide) (by decide)
      (by decide)).2.1⟩

end Kaonic
